import Mathlib

/-!
Shallow embedding of `src/main.py` of the repository
"opgaveflytning-mellem-medarbejdere-i-nexus".

The program has two phases:
* `populate_queue` (lines 22-61): scans the workflow engine for pending
  reassignment requests; for each, resolves the source employee by initials,
  and either enqueues a WorkItem or rejects the request and stops the scan.
* `process_workqueue` (lines 63-129): for each WorkItem, fetches all tasks of
  the source employee, resolves the target employee once, then reassigns every
  task in a per-task try/except loop, and finally writes two form fields and
  advances the originating workflow instance.

External collaborators (Nexus clients, the workflow engine, the tracker and the
reporter) are modelled as an environment of pure functions, and all side
effects are recorded in an event trace.  Python exceptions are modelled by an
explicit `Exc` value: `WorkItemError` is always caught by the per-task handler
and therefore never appears as an escaping exception; a `TypeError` models
subscripting `None` (line 74 when the target employee lookup returns `None`);
an `UnboundLocalError` models reading the local variable `nexus_opgave` in the
`except` handler (line 110) before it was ever assigned.  The local
`nexus_opgave` persists across loop iterations and across work items within one
invocation, so it is threaded through the model as
`Option (Option Assignment)`: `none` is "unbound", `some v` is "bound to `v`"
(where `v = none` models the variable bound to Python `None`).

The `with item:` scope is the work-queue collaborator: per the queue interface
an escaping exception marks the item failed and the run continues with the
next item; a normal exit marks it completed.
-/

namespace Opgaveflytning

/-- An employee record returned by `hent_medarbejder_ved_initialer`
(fields read on lines 74-77). -/
structure Employee where
  id : String
  fullName : String
  primaryIdentifier : String
  active : Bool
  deriving DecidableEq

/-- The `til_medarbejder` projection built on lines 73-78 and written into the
assignment's `professionalAssignee` field on line 100. -/
structure Projection where
  professionalId : String
  displayName : String
  displayNameWithUniqId : String
  active : Bool
  deriving DecidableEq

/-- Lines 73-78: the projection built from a resolved employee. -/
def projectionOf (m : Employee) : Projection :=
  { professionalId := m.id
    displayName := m.fullName
    displayNameWithUniqId := m.fullName ++ " (" ++ m.primaryIdentifier ++ ")"
    active := m.active }

/-- A row returned by `get_tasks_by_professional` (line 67); the code reads
`opgave["cpr"]` and `opgave["id"]`. -/
structure DbTask where
  cpr : String
  id : String
  deriving DecidableEq

/-- A citizen record returned by `hent_borger` (line 82); the core never
inspects it, so it is identified by the CPR it was looked up with. -/
structure Citizen where
  cpr : String
  deriving DecidableEq

/-- The Nexus assignment record (`nexus_opgave`, line 87).  `title` is `none`
when the record has no `title` key (the `except` handler on line 110 guards
with `'title' in nexus_opgave`). -/
structure Assignment where
  title : Option String
  professionalAssignee : Option Projection
  deriving DecidableEq

/-- The queue payload built on lines 55-59.  `to_initials` is an `Option` so
that an absent/None payload value can be expressed; the populate phase always
stores a string. -/
structure WorkItem where
  from_initials : String
  to_initials : Option String
  xflow_process_id : String
  deriving DecidableEq

/-- One observable side effect on an external collaborator. -/
inductive Ev where
  | lookupEmployee (initials : String)
  | getTasks (initials : String)
  | hentBorger (cpr : String)
  | hentOpgave (cpr : String) (taskId : String)
  | save (a : Assignment) (ok : Bool)
  | track
  | report (cpr : String) (fejl : String)
  | updateProcess (pid : String) (fields : List (String × String × String))
  | advanceProcess (pid : String)
  | rejectProcess (pid : String) (activityId : String) (reason : String)
  | addItem (item : WorkItem) (label : String)
  deriving DecidableEq

/-- The external collaborators consumed by `process_workqueue`, as pure
functions.  `rediger_opgave_ok a = false` models `rediger_opgave` raising
a `WorkItemError` for that assignment (the failure mode of Scenario D). -/
structure Env where
  hent_medarbejder_ved_initialer : String → Option Employee
  get_tasks_by_professional : String → List DbTask
  hent_borger : String → Option Citizen
  hent_opgave_for_borger : Citizen → String → Option Assignment
  rediger_opgave_ok : Assignment → Bool

/-- An exception escaping the per-task try/except. -/
inductive Exc where
  | typeError
  | unboundLocalError
  deriving DecidableEq

/-- Python `str.strip()`: drop whitespace from both ends. -/
def pyStrip (s : String) : String :=
  String.mk (((s.data.dropWhile Char.isWhitespace).reverse.dropWhile
    Char.isWhitespace).reverse)

/-- Line 71: `data["to_initials"] is not None and not
data["to_initials"].strip() == ""`. -/
def tilMedarbejderCheck (ti : Option String) : Bool :=
  match ti with
  | none => false
  | some s => !(pyStrip s == "")

/-- Line 110: `nexus_opgave['title'] if nexus_opgave and 'title' in
nexus_opgave else 'Ukendt'`, evaluated on a *bound* `nexus_opgave`
(`none` models the variable bound to Python `None`, which is falsy). -/
def exceptTitle (v : Option Assignment) : String :=
  match v with
  | none => "Ukendt"
  | some a =>
    match a.title with
    | none => "Ukendt"
    | some t => t

/-- The failure text of the `except WorkItemError` report (lines 105-112). -/
def redigerFejl (v : Option Assignment) : String :=
  "Kunne ikke redigere opgave med navn: " ++ exceptTitle v ++ " i Nexus"

/-- One iteration of the per-task loop (lines 80-112), including the
try/except.  Returns the emitted events, the new state of the local variable
`nexus_opgave` (`none` = still unbound), and an escaping exception if any.
A `WorkItemError` (missing citizen, or failed save) is caught on line 104; the
handler's f-string then reads `nexus_opgave`, which raises
`UnboundLocalError` when the variable has never been assigned. -/
def taskAttempt (env : Env) (til : Option Projection)
    (var : Option (Option Assignment)) (opgave : DbTask) :
    List Ev × Option (Option Assignment) × Option Exc :=
  match env.hent_borger opgave.cpr with
  | none =>
    match var with
    | none =>
      ([Ev.hentBorger opgave.cpr], none, some Exc.unboundLocalError)
    | some v =>
      ([Ev.hentBorger opgave.cpr, Ev.report opgave.cpr (redigerFejl v)],
        some v, none)
  | some borger =>
    match env.hent_opgave_for_borger borger opgave.id with
    | none =>
      ([Ev.hentBorger opgave.cpr, Ev.hentOpgave opgave.cpr opgave.id,
         Ev.report opgave.cpr "Kunne ikke finde opgave i Nexus"],
        some none, none)
    | some nexus_opgave =>
      let edited := { nexus_opgave with professionalAssignee := til }
      if env.rediger_opgave_ok edited then
        ([Ev.hentBorger opgave.cpr, Ev.hentOpgave opgave.cpr opgave.id,
           Ev.save edited true, Ev.track],
          some (some edited), none)
      else
        ([Ev.hentBorger opgave.cpr, Ev.hentOpgave opgave.cpr opgave.id,
           Ev.save edited false, Ev.report opgave.cpr (redigerFejl (some edited))],
          some (some edited), none)

/-- The per-task loop over the fetched tasks; an escaping exception aborts the
remaining iterations. -/
def runTasks (env : Env) (til : Option Projection) :
    Option (Option Assignment) → List DbTask →
    List Ev × Option (Option Assignment) × Option Exc
  | var, [] => ([], var, none)
  | var, opgave :: rest =>
    match taskAttempt env til var opgave with
    | (evs, var2, some e) => (evs, var2, some e)
    | (evs, var2, none) =>
      match runTasks env til var2 rest with
      | (evs2, var3, exc) => (evs ++ evs2, var3, exc)

/-- Lines 69-78: resolve the target employee once, before the loop.  When the
check on line 71 passes but the lookup returns `None`, line 74 subscripts
`None` and raises a `TypeError`. -/
def resolveTil (env : Env) (ti : Option String) :
    List Ev × Option Projection × Option Exc :=
  if tilMedarbejderCheck ti then
    match ti with
    | none => ([], none, none)
    | some s =>
      match env.hent_medarbejder_ved_initialer s with
      | none => ([Ev.lookupEmployee s], none, some Exc.typeError)
      | some m => ([Ev.lookupEmployee s], some (projectionOf m), none)
  else ([], none, none)

/-- Lines 113-126: the two form fields written back before advancing. -/
def blanketData (today : String) : List (String × String × String) :=
  [("RPASignatur", "Tekst", "Behandlet af Tyra (RPA)"),
   ("RPABehandletDato", "Dato", today)]

/-- Terminal state of a work item under the `with item:` scope. -/
inductive ItemStatus where
  | completed
  | failed
  deriving DecidableEq

/-- Result of handling one work item: emitted events, the state of the local
variable `nexus_opgave` afterwards, the escaping exception if any, and the
status the queue records on scope exit. -/
structure ItemResult where
  trace : List Ev
  var : Option (Option Assignment)
  exc : Option Exc
  status : ItemStatus
  deriving DecidableEq

/-- The body of the `with item:` block (lines 65-129) for a single work item.
`var0` is the state of the local `nexus_opgave` on entry (it persists from
earlier items of the same invocation). -/
def processItem (env : Env) (today : String)
    (var0 : Option (Option Assignment)) (item : WorkItem) : ItemResult :=
  let header := Ev.getTasks item.from_initials
  let opgaver := env.get_tasks_by_professional item.from_initials
  match resolveTil env item.to_initials with
  | (evT, _, some e) =>
    { trace := header :: evT, var := var0, exc := some e
      status := ItemStatus.failed }
  | (evT, til, none) =>
    match runTasks env til var0 opgaver with
    | (evs, var1, some e) =>
      { trace := header :: evT ++ evs, var := var1, exc := some e
        status := ItemStatus.failed }
    | (evs, var1, none) =>
      { trace := header :: evT ++ evs ++
          [Ev.updateProcess item.xflow_process_id (blanketData today),
           Ev.advanceProcess item.xflow_process_id]
        var := var1, exc := none, status := ItemStatus.completed }

/-- Lines 64-129: drain the queue, threading the local `nexus_opgave` from one
item to the next; collect the full trace and each item's terminal status. -/
def processWorkqueue (env : Env) (today : String) :
    Option (Option Assignment) → List WorkItem → List Ev × List ItemStatus
  | _, [] => ([], [])
  | var, item :: rest =>
    let r := processItem env today var item
    match processWorkqueue env today r.var rest with
    | (evs, sts) => (r.trace ++ evs, r.status :: sts)

/-- One invocation of `process_workqueue`: on function entry `nexus_opgave`
is unbound. -/
def runProcessPhase (env : Env) (today : String) (queue : List WorkItem) :
    List Ev × List ItemStatus :=
  processWorkqueue env today none queue

/-- A workflow-engine search result as consumed by `populate_queue`:
its public id, the two form-field values (already `str()`-wrapped, lines
41-42), and the first permissible rejection target of its `RPAIntegration`
activity (line 48). -/
structure PRequest where
  publicId : String
  fraInitialer : String
  tilInitialer : String
  rejectActivityId : String
  deriving DecidableEq

/-- Line 49: `f"Medarbejder med initialer: {medarbejder_fra} blev ikke fundet
i Nexus"`.  In the rejection branch `medarbejder_fra` is the *lookup result*,
which is `None` there, so the interpolation always yields the text "None" and
never the initials. -/
def afvisReason : String :=
  "Medarbejder med initialer: None blev ikke fundet i Nexus"

/-- Lines 38-61: the populate loop.  An unresolved source employee rejects the
request and `break`s out of the loop. -/
def populateQueue (dir : String → Option Employee) : List PRequest → List Ev
  | [] => []
  | p :: rest =>
    match dir p.fraInitialer with
    | none =>
      [Ev.lookupEmployee p.fraInitialer,
       Ev.rejectProcess p.publicId p.rejectActivityId afvisReason]
    | some _ =>
      Ev.lookupEmployee p.fraInitialer ::
        Ev.addItem
          { from_initials := p.fraInitialer
            to_initials := some p.tilInitialer
            xflow_process_id := p.publicId }
          (p.fraInitialer ++ " - " ++ p.tilInitialer) ::
        populateQueue dir rest

/-- Count the events of a trace satisfying a predicate. -/
def countP (p : Ev → Bool) (trace : List Ev) : Nat :=
  (trace.filter p).length

/-- A per-task attempt is entered exactly when `hent_borger` is called
(line 82 is the first statement of the try block). -/
def isAttempt : Ev → Bool
  | Ev.hentBorger _ => true
  | _ => false

/-- An employee-directory lookup. -/
def isLookup : Ev → Bool
  | Ev.lookupEmployee _ => true
  | _ => false

/-- A reporter failure event. -/
def isReport : Ev → Bool
  | Ev.report _ _ => true
  | _ => false

/-- A tracker success event. -/
def isTrack : Ev → Bool
  | Ev.track => true
  | _ => false

/-- Any rejection call. -/
def isRejectAny : Ev → Bool
  | Ev.rejectProcess _ _ _ => true
  | _ => false

/-- A rejection call for a given process id. -/
def isRejectOf (pid : String) : Ev → Bool
  | Ev.rejectProcess q _ _ => q == pid
  | _ => false

/-- An enqueue of a work item referencing a given process id. -/
def isAddOf (pid : String) : Ev → Bool
  | Ev.addItem it _ => it.xflow_process_id == pid
  | _ => false

/-- An event of the per-task loop body. -/
def isTaskEv : Ev → Bool
  | Ev.hentBorger _ => true
  | Ev.hentOpgave _ _ => true
  | Ev.save _ _ => true
  | Ev.track => true
  | Ev.report _ _ => true
  | _ => false

/-- Whether the character list `pat` is an initial segment of `hay`. -/
def strStarts : List Char → List Char → Bool
  | _, [] => true
  | [], _ :: _ => false
  | c :: cs, d :: ds => c == d && strStarts cs ds

/-- Whether `pat` occurs contiguously inside `hay`. -/
def strContainsL : List Char → List Char → Bool
  | [], pat => strStarts [] pat
  | hay@(_ :: rest), pat => strStarts hay pat || strContainsL rest pat

/-- Substring test on strings. -/
def strContains (hay needle : String) : Bool :=
  strContainsL hay.data needle.data

/-- The spec's "absent, empty, or blank (whitespace only)" condition on
`to_initials`. -/
def specBlankTo (ti : Option String) : Prop :=
  ti = none ∨ ∃ s, ti = some s ∧ ∀ c ∈ s.data, c.isWhitespace

/-- The events that precede the per-task loop for one item: the task fetch and
the optional target-employee lookup (lines 67-78). -/
def itemHeader (env : Env) (item : WorkItem) : List Ev :=
  Ev.getTasks item.from_initials :: (resolveTil env item.to_initials).1

/-- The target projection the loop uses (`til_medarbejder`). -/
def targetOf (env : Env) (item : WorkItem) : Option Projection :=
  (resolveTil env item.to_initials).2.1

/-- Case analysis on one iteration of the per-task loop: the five possible
outcomes of lines 80-112. -/
lemma taskAttempt_cases (env : Env) (til : Option Projection)
    (var : Option (Option Assignment)) (opgave : DbTask) :
    taskAttempt env til var opgave =
        ([Ev.hentBorger opgave.cpr], none, some Exc.unboundLocalError)
    ∨ (∃ v, taskAttempt env til var opgave =
        ([Ev.hentBorger opgave.cpr, Ev.report opgave.cpr (redigerFejl v)],
          some v, none))
    ∨ taskAttempt env til var opgave =
        ([Ev.hentBorger opgave.cpr, Ev.hentOpgave opgave.cpr opgave.id,
           Ev.report opgave.cpr "Kunne ikke finde opgave i Nexus"],
          some none, none)
    ∨ (∃ a, a.professionalAssignee = til ∧
        (taskAttempt env til var opgave =
            ([Ev.hentBorger opgave.cpr, Ev.hentOpgave opgave.cpr opgave.id,
               Ev.save a true, Ev.track], some (some a), none)
         ∨ taskAttempt env til var opgave =
            ([Ev.hentBorger opgave.cpr, Ev.hentOpgave opgave.cpr opgave.id,
               Ev.save a false, Ev.report opgave.cpr (redigerFejl (some a))],
              some (some a), none))) := by
  cases hb : env.hent_borger opgave.cpr with
  | none =>
    cases var with
    | none => exact Or.inl (by simp [taskAttempt, hb])
    | some v => exact Or.inr (Or.inl ⟨v, by simp [taskAttempt, hb]⟩)
  | some borger =>
    cases ho : env.hent_opgave_for_borger borger opgave.id with
    | none => exact Or.inr (Or.inr (Or.inl (by simp [taskAttempt, hb, ho])))
    | some nx =>
      by_cases hr :
          env.rediger_opgave_ok { nx with professionalAssignee := til }
      · exact Or.inr (Or.inr (Or.inr
          ⟨{ nx with professionalAssignee := til }, rfl,
            Or.inl (by simp [taskAttempt, hb, ho, hr])⟩))
      · exact Or.inr (Or.inr (Or.inr
          ⟨{ nx with professionalAssignee := til }, rfl,
            Or.inr (by simp [taskAttempt, hb, ho, hr])⟩))

/-- Every event emitted inside one task attempt is a task-loop event, and any
`save` it emits carries exactly the target projection `til`. -/
lemma taskAttempt_mem (env : Env) (til : Option Projection)
    (var : Option (Option Assignment)) (opgave : DbTask) :
    ∀ e ∈ (taskAttempt env til var opgave).1, isTaskEv e = true ∧
      ∀ a ok, e = Ev.save a ok → a.professionalAssignee = til := by
  intro e he
  rcases taskAttempt_cases env til var opgave with h | ⟨v, h⟩ | h | ⟨a, ha, h | h⟩ <;>
    rw [h] at he <;> simp at he
  · subst he; exact ⟨rfl, by intro a ok h; cases h⟩
  · rcases he with rfl | rfl <;> exact ⟨rfl, by intro a ok h; cases h⟩
  · rcases he with rfl | rfl | rfl <;> exact ⟨rfl, by intro a ok h; cases h⟩
  · rcases he with rfl | rfl | rfl | rfl <;>
      refine ⟨rfl, ?_⟩ <;> intro a2 ok h <;> cases h <;> exact ha
  · rcases he with rfl | rfl | rfl | rfl <;>
      refine ⟨rfl, ?_⟩ <;> intro a2 ok h <;> cases h <;> exact ha

/-- One task attempt enters the try block exactly once: it emits exactly one
`hent_borger` call. -/
lemma taskAttempt_attempt_count (env : Env) (til : Option Projection)
    (var : Option (Option Assignment)) (opgave : DbTask) :
    countP isAttempt (taskAttempt env til var opgave).1 = 1 := by
  rcases taskAttempt_cases env til var opgave with h | ⟨v, h⟩ | h | ⟨a, _, h | h⟩ <;>
    rw [h] <;> rfl

/-- Every event emitted by the per-task loop is a task-loop event, and every
`save` carries the target projection `til`. -/
lemma runTasks_mem (env : Env) (til : Option Projection) :
    ∀ (ts : List DbTask) (var : Option (Option Assignment)),
      ∀ e ∈ (runTasks env til var ts).1, isTaskEv e = true ∧
        ∀ a ok, e = Ev.save a ok → a.professionalAssignee = til := by
  intro ts
  induction ts with
  | nil => intro var e he; simp [runTasks] at he
  | cons opgave rest ih =>
    intro var e he
    rcases hta : taskAttempt env til var opgave with ⟨evs, var2, exc⟩
    cases exc with
    | some ex =>
      rw [runTasks, hta] at he
      dsimp only at he
      exact taskAttempt_mem env til var opgave e (by rw [hta]; exact he)
    | none =>
      rcases hrt : runTasks env til var2 rest with ⟨evs2, var3, exc2⟩
      rw [runTasks, hta] at he
      dsimp only at he
      rw [hrt] at he
      dsimp only at he
      rcases List.mem_append.mp he with he | he
      · exact taskAttempt_mem env til var opgave e (by rw [hta]; exact he)
      · exact ih var2 e (by rw [hrt]; exact he)

/-- When the per-task loop terminates without an escaping exception, the
number of attempts equals the number of fetched tasks. -/
lemma runTasks_attempt_count (env : Env) (til : Option Projection) :
    ∀ (ts : List DbTask) (var : Option (Option Assignment)),
      (runTasks env til var ts).2.2 = none →
      countP isAttempt (runTasks env til var ts).1 = ts.length := by
  intro ts
  induction ts with
  | nil => intro var _; rfl
  | cons opgave rest ih =>
    intro var hnone
    rcases hta : taskAttempt env til var opgave with ⟨evs, var2, exc⟩
    cases exc with
    | some ex =>
      rw [runTasks, hta] at hnone
      dsimp only at hnone
      exact absurd hnone (by simp)
    | none =>
      rcases hrt : runTasks env til var2 rest with ⟨evs2, var3, exc2⟩
      rw [runTasks, hta] at hnone ⊢
      dsimp only at hnone ⊢
      rw [hrt] at hnone ⊢
      dsimp only at hnone ⊢
      have h1 : countP isAttempt evs = 1 := by
        have := taskAttempt_attempt_count env til var opgave
        rw [hta] at this; exact this
      have h2 : countP isAttempt evs2 = rest.length := by
        have := ih var2 (by rw [hrt]; exact hnone)
        rw [hrt] at this; exact this
      simp only [countP, List.filter_append, List.length_append] at h1 h2 ⊢
      simp [h1, h2, Nat.add_comm]

/-- The trace of the target-employee resolution (lines 69-78) consists of at
most one directory lookup and nothing else. -/
lemma resolveTil_trace (env : Env) (ti : Option String) :
    (resolveTil env ti).1 = [] ∨
      ∃ s, ti = some s ∧ (resolveTil env ti).1 = [Ev.lookupEmployee s] := by
  unfold resolveTil
  by_cases hc : tilMedarbejderCheck ti
  · cases ti with
    | none => simp [hc]
    | some s =>
      cases hm : env.hent_medarbejder_ved_initialer s with
      | none => exact Or.inr ⟨s, rfl, by simp [hc, hm]⟩
      | some m => exact Or.inr ⟨s, rfl, by simp [hc, hm]⟩
  · simp [hc]

/-- A trace whose events all falsify `p` counts zero events under `p`. -/
lemma countP_eq_zero {p : Ev → Bool} :
    ∀ {l : List Ev}, (∀ e ∈ l, p e = false) → countP p l = 0 := by
  intro l
  induction l with
  | nil => intro _; rfl
  | cons e rest ih =>
    intro h
    have he : p e = false := h e (List.mem_cons_self e rest)
    have hr : countP p rest = 0 := ih fun x hx => h x (List.mem_cons_of_mem e hx)
    simp only [countP, List.filter_cons, he] at hr ⊢
    simp [hr]

/-- A task-loop event is never an `advanceProcess` call. -/
lemma taskEv_not_advance {e : Ev} (h : isTaskEv e = true) :
    ∀ pid, e ≠ Ev.advanceProcess pid := by
  intro pid hcontra
  subst hcontra
  simp [isTaskEv] at h

/-- A task-loop event is never an employee-directory lookup. -/
lemma taskEv_not_lookup {e : Ev} (h : isTaskEv e = true) :
    isLookup e = false := by
  cases e <;> simp [isTaskEv, isLookup] at h ⊢

/-- The per-task loop never advances a workflow instance. -/
lemma runTasks_no_advance (env : Env) (til : Option Projection)
    (ts : List DbTask) (var : Option (Option Assignment)) (pid : String) :
    Ev.advanceProcess pid ∉ (runTasks env til var ts).1 := by
  intro hmem
  exact taskEv_not_advance (runTasks_mem env til ts var _ hmem).1 pid rfl

/-- The per-task loop performs no employee-directory lookup. -/
lemma runTasks_no_lookup (env : Env) (til : Option Projection)
    (ts : List DbTask) (var : Option (Option Assignment)) :
    countP isLookup (runTasks env til var ts).1 = 0 :=
  countP_eq_zero fun _ he => taskEv_not_lookup (runTasks_mem env til ts var _ he).1

/-- Branch of `processItem` where the target-employee resolution raises. -/
lemma processItem_resolve_fail {env : Env} {today : String}
    {var0 : Option (Option Assignment)} {item : WorkItem}
    {evT : List Ev} {til : Option Projection} {e : Exc}
    (h : resolveTil env item.to_initials = (evT, til, some e)) :
    processItem env today var0 item =
      { trace := Ev.getTasks item.from_initials :: evT, var := var0
        exc := some e, status := ItemStatus.failed } := by
  unfold processItem
  rw [h]

/-- Branch of `processItem` where the per-task loop raises. -/
lemma processItem_loop_fail {env : Env} {today : String}
    {var0 : Option (Option Assignment)} {item : WorkItem}
    {evT : List Ev} {til : Option Projection}
    {evs : List Ev} {var1 : Option (Option Assignment)} {e : Exc}
    (h1 : resolveTil env item.to_initials = (evT, til, none))
    (h2 : runTasks env til var0 (env.get_tasks_by_professional item.from_initials) =
      (evs, var1, some e)) :
    processItem env today var0 item =
      { trace := Ev.getTasks item.from_initials :: evT ++ evs, var := var1
        exc := some e, status := ItemStatus.failed } := by
  unfold processItem
  rw [h1]
  dsimp only
  rw [h2]

/-- Branch of `processItem` where no exception escapes: the write-back and the
advance happen. -/
lemma processItem_success {env : Env} {today : String}
    {var0 : Option (Option Assignment)} {item : WorkItem}
    {evT : List Ev} {til : Option Projection}
    {evs : List Ev} {var1 : Option (Option Assignment)}
    (h1 : resolveTil env item.to_initials = (evT, til, none))
    (h2 : runTasks env til var0 (env.get_tasks_by_professional item.from_initials) =
      (evs, var1, none)) :
    processItem env today var0 item =
      { trace := Ev.getTasks item.from_initials :: evT ++ evs ++
          [Ev.updateProcess item.xflow_process_id (blanketData today),
           Ev.advanceProcess item.xflow_process_id]
        var := var1, exc := none, status := ItemStatus.completed } := by
  unfold processItem
  rw [h1]
  dsimp only
  rw [h2]

/-- C2: the originating workflow instance is advanced if and only if the
per-task loop ran to completion without an unrecovered failure (no escaping
exception); when an unrecovered failure occurs, the WorkItem is marked failed
and the instance is not advanced. -/
theorem claim_C2_advance_iff_no_unrecovered_failure (env : Env) (today : String)
    (var0 : Option (Option Assignment)) (item : WorkItem) :
    (Ev.advanceProcess item.xflow_process_id ∈ (processItem env today var0 item).trace
      ↔ (processItem env today var0 item).exc = none)
    ∧ ((processItem env today var0 item).status = ItemStatus.failed
      ↔ (processItem env today var0 item).exc ≠ none) := by
  rcases hrt : resolveTil env item.to_initials with ⟨evT, til, excT⟩
  have hevT : evT = [] ∨ ∃ s, item.to_initials = some s ∧ evT = [Ev.lookupEmployee s] := by
    have := resolveTil_trace env item.to_initials
    rw [hrt] at this
    exact this
  cases excT with
  | some e =>
    rw [processItem_resolve_fail hrt]
    constructor
    · constructor
      · intro hmem
        exfalso
        rcases hevT with rfl | ⟨s, _, rfl⟩ <;> simp at hmem
      · intro hcontra; cases hcontra
    · simp
  | none =>
    rcases hrn : runTasks env til var0 (env.get_tasks_by_professional item.from_initials)
      with ⟨evs, var1, excL⟩
    have hnoadv : Ev.advanceProcess item.xflow_process_id ∉ evs := by
      have := runTasks_no_advance env til
        (env.get_tasks_by_professional item.from_initials) var0 item.xflow_process_id
      rw [hrn] at this
      exact this
    cases excL with
    | some e =>
      rw [processItem_loop_fail hrt hrn]
      constructor
      · constructor
        · intro hmem
          exfalso
          rcases List.mem_cons.mp hmem with h | h
          · cases h
          · rcases List.mem_append.mp h with h | h
            · rcases hevT with rfl | ⟨s, _, rfl⟩
              · cases h
              · rcases List.mem_cons.mp h with h | h
                · cases h
                · cases h
            · exact hnoadv h
        · intro hcontra; cases hcontra
      · simp
    | none =>
      rw [processItem_success hrt hrn]
      constructor
      · simp
      · simp

/-- C10: the target employee is resolved at most once, before the per-task
loop starts (the item's trace is a header with at most one directory lookup
and no task event, followed by a body with no directory lookup), and every
persisted Assignment carries the identical `professionalAssignee` projection
`targetOf env item`. -/
theorem claim_C10_target_resolved_once_and_uniform (env : Env) (today : String)
    (var0 : Option (Option Assignment)) (item : WorkItem) :
    ∃ body : List Ev,
      (processItem env today var0 item).trace = itemHeader env item ++ body
      ∧ countP isLookup (itemHeader env item) ≤ 1
      ∧ countP isLookup body = 0
      ∧ countP isTaskEv (itemHeader env item) = 0
      ∧ ∀ a ok, Ev.save a ok ∈ (processItem env today var0 item).trace →
          a.professionalAssignee = targetOf env item := by
  have hheadL : countP isLookup (itemHeader env item) ≤ 1 := by
    unfold itemHeader
    rcases resolveTil_trace env item.to_initials with h | ⟨s, _, h⟩ <;>
      rw [h] <;> simp [countP, List.filter, isLookup]
  have hheadT : countP isTaskEv (itemHeader env item) = 0 := by
    unfold itemHeader
    rcases resolveTil_trace env item.to_initials with h | ⟨s, _, h⟩ <;>
      rw [h] <;> simp [countP, List.filter, isTaskEv]
  rcases hrt : resolveTil env item.to_initials with ⟨evT, til, excT⟩
  have htil : targetOf env item = til := by
    unfold targetOf
    rw [hrt]
  have hhead : itemHeader env item = Ev.getTasks item.from_initials :: evT := by
    unfold itemHeader
    rw [hrt]
  have hloopsave : ∀ a ok,
      Ev.save a ok ∈ (runTasks env til var0
        (env.get_tasks_by_professional item.from_initials)).1 →
      a.professionalAssignee = til := by
    intro a ok hmem
    exact (runTasks_mem env til _ var0 _ hmem).2 a ok rfl
  have hloopnl := runTasks_no_lookup env til
    (env.get_tasks_by_professional item.from_initials) var0
  have hsave_head : ∀ a ok, Ev.save a ok ∉ itemHeader env item := by
    intro a ok hmem
    rw [hhead] at hmem
    have := resolveTil_trace env item.to_initials
    rw [hrt] at this
    rcases this with rfl | ⟨s, _, rfl⟩ <;> simp at hmem
  cases excT with
  | some e =>
    refine ⟨[], ?_, hheadL, by simp [countP], hheadT, ?_⟩
    · rw [processItem_resolve_fail hrt, hhead]
      simp
    · intro a ok hmem
      rw [processItem_resolve_fail hrt, ← hhead] at hmem
      exact absurd hmem (hsave_head a ok)
  | none =>
    rcases hrn : runTasks env til var0 (env.get_tasks_by_professional item.from_initials)
      with ⟨evs, var1, excL⟩
    have hevsL : countP isLookup evs = 0 := by
      rw [hrn] at hloopnl
      exact hloopnl
    have hevs_save : ∀ a ok, Ev.save a ok ∈ evs → a.professionalAssignee = til := by
      intro a ok hmem
      exact hloopsave a ok (by rw [hrn]; exact hmem)
    cases excL with
    | some e =>
      refine ⟨evs, ?_, hheadL, hevsL, hheadT, ?_⟩
      · rw [processItem_loop_fail hrt hrn, hhead]
      · intro a ok hmem
        rw [processItem_loop_fail hrt hrn] at hmem
        rw [htil]
        rcases List.mem_cons.mp hmem with h | h
        · cases h
        · rcases List.mem_append.mp h with h | h
          · exact absurd (by rw [hhead]; exact List.mem_cons_of_mem _ h :
              Ev.save a ok ∈ itemHeader env item) (hsave_head a ok)
          · exact hevs_save a ok h
    | none =>
      refine ⟨evs ++ [Ev.updateProcess item.xflow_process_id (blanketData today),
        Ev.advanceProcess item.xflow_process_id], ?_, hheadL, ?_, hheadT, ?_⟩
      · rw [processItem_success hrt hrn, hhead]
        simp
      · simp only [countP, List.filter_append, List.length_append] at hevsL ⊢
        simp [hevsL, countP, List.filter, isLookup]
      · intro a ok hmem
        rw [processItem_success hrt hrn] at hmem
        rw [htil]
        rcases List.mem_cons.mp hmem with h | h
        · cases h
        · rcases List.mem_append.mp h with h | h
          · rcases List.mem_append.mp h with h | h
            · exact absurd (by rw [hhead]; exact List.mem_cons_of_mem _ h :
                Ev.save a ok ∈ itemHeader env item) (hsave_head a ok)
            · exact hevs_save a ok h
          · rcases List.mem_cons.mp h with h | h
            · cases h
            · rcases List.mem_cons.mp h with h | h
              · cases h
              · cases h

/-- An absent, empty or whitespace-only `to_initials` fails the check on
line 71. -/
lemma check_false_of_blank {ti : Option String} (h : specBlankTo ti) :
    tilMedarbejderCheck ti = false := by
  rcases h with rfl | ⟨s, rfl, hws⟩
  · rfl
  · have h1 : s.data.dropWhile Char.isWhitespace = [] :=
      List.dropWhile_eq_nil_iff.mpr hws
    have h2 : pyStrip s = "" := by
      unfold pyStrip
      rw [h1]
      rfl
    simp [tilMedarbejderCheck, h2]

/-- When the line-71 check fails, no lookup happens and `til_medarbejder`
stays `None`. -/
lemma resolveTil_of_check_false {env : Env} {ti : Option String}
    (h : tilMedarbejderCheck ti = false) :
    resolveTil env ti = ([], none, none) := by
  unfold resolveTil
  rw [h]
  simp

/-- C3: for a WorkItem whose `to_initials` is absent, empty or blank, every
Assignment persisted while processing it has `professionalAssignee = none`. -/
theorem claim_C3_blank_target_saves_null (env : Env) (today : String)
    (var0 : Option (Option Assignment)) (item : WorkItem)
    (h : specBlankTo item.to_initials) :
    ∀ a ok, Ev.save a ok ∈ (processItem env today var0 item).trace →
      a.professionalAssignee = none := by
  intro a ok hmem
  have hrt : resolveTil env item.to_initials = ([], none, none) :=
    resolveTil_of_check_false (check_false_of_blank h)
  have hloopsave : ∀ evs2 : List Ev, Ev.save a ok ∈ evs2 →
      (runTasks env none var0 (env.get_tasks_by_professional item.from_initials)).1 = evs2 →
      a.professionalAssignee = none := by
    intro evs2 hin heq
    exact (runTasks_mem env none _ var0 _ (by rw [heq]; exact hin)).2 a ok rfl
  rcases hrn : runTasks env none var0 (env.get_tasks_by_professional item.from_initials)
    with ⟨evs, var1, excL⟩
  cases excL with
  | some e =>
    rw [processItem_loop_fail hrt hrn] at hmem
    rcases List.mem_cons.mp hmem with h' | h'
    · cases h'
    · exact hloopsave evs h' (by rw [hrn])
  | none =>
    rw [processItem_success hrt hrn] at hmem
    rcases List.mem_cons.mp hmem with h' | h'
    · cases h'
    · rcases List.mem_append.mp h' with h' | h'
      · exact hloopsave evs h' (by rw [hrn])
      · rcases List.mem_cons.mp h' with h' | h'
        · cases h'
        · rcases List.mem_cons.mp h' with h' | h'
          · cases h'
          · cases h'

/-- Concrete environment for witnesses of the process phase: one task, whose
citizen and assignment resolve, and whose save succeeds. -/
def envHappy : Env :=
  { hent_medarbejder_ved_initialer := fun _ => none
    get_tasks_by_professional := fun _ => [{ cpr := "0101", id := "T1" }]
    hent_borger := fun c => some { cpr := c }
    hent_opgave_for_borger := fun _ _ =>
      some { title := some "Opgave"
             professionalAssignee :=
               some { professionalId := "9", displayName := "X"
                      displayNameWithUniqId := "X (9)", active := true } }
    rediger_opgave_ok := fun _ => true }

/-- Witness for C3: a WorkItem with `to_initials = " "` saves its one
assignment with a null assignee. -/
theorem claim_C3_witness :
    ({ title := some "Opgave", professionalAssignee := none } :
        Assignment).professionalAssignee = none
    ∧ Ev.save { title := some "Opgave", professionalAssignee := none } true
        ∈ (processItem envHappy "d" none
            { from_initials := "AB", to_initials := some " "
              xflow_process_id := "P3" }).trace :=
  ⟨claim_C3_blank_target_saves_null envHappy "d" none
      { from_initials := "AB", to_initials := some " ", xflow_process_id := "P3" }
      (Or.inr ⟨" ", rfl, by decide⟩)
      { title := some "Opgave", professionalAssignee := none } true (by decide),
    by decide⟩

/-- C8: when no unrecovered failure occurs, the item's trace ends with exactly
the two-field write-back followed by the advance, the part before them
contains one attempt per fetched task, and no advance happens earlier. -/
theorem claim_C8_writeback_then_advance_after_all_attempts (env : Env)
    (today : String) (var0 : Option (Option Assignment)) (item : WorkItem)
    (h : (processItem env today var0 item).exc = none) :
    ∃ evs : List Ev,
      (processItem env today var0 item).trace =
        evs ++ [Ev.updateProcess item.xflow_process_id (blanketData today),
                Ev.advanceProcess item.xflow_process_id]
      ∧ countP isAttempt evs =
          (env.get_tasks_by_professional item.from_initials).length
      ∧ Ev.advanceProcess item.xflow_process_id ∉ evs := by
  rcases hrt : resolveTil env item.to_initials with ⟨evT, til, excT⟩
  have hevT : evT = [] ∨ ∃ s, item.to_initials = some s ∧ evT = [Ev.lookupEmployee s] := by
    have := resolveTil_trace env item.to_initials
    rw [hrt] at this
    exact this
  cases excT with
  | some e =>
    rw [processItem_resolve_fail hrt] at h
    cases h
  | none =>
    rcases hrn : runTasks env til var0 (env.get_tasks_by_professional item.from_initials)
      with ⟨evs, var1, excL⟩
    cases excL with
    | some e =>
      rw [processItem_loop_fail hrt hrn] at h
      cases h
    | none =>
      refine ⟨Ev.getTasks item.from_initials :: (evT ++ evs), ?_, ?_, ?_⟩
      · rw [processItem_success hrt hrn]
        simp
      · have hcT : countP isAttempt evT = 0 := by
          rcases hevT with rfl | ⟨s, _, rfl⟩ <;> rfl
        have hcL : countP isAttempt evs =
            (env.get_tasks_by_professional item.from_initials).length := by
          have := runTasks_attempt_count env til
            (env.get_tasks_by_professional item.from_initials) var0 (by rw [hrn])
          rw [hrn] at this
          exact this
        simp only [countP, List.filter_cons, List.filter_append,
          List.length_append] at hcT hcL ⊢
        simp [isAttempt, hcT, hcL]
      · intro hmem
        rcases List.mem_cons.mp hmem with h' | h'
        · cases h'
        · rcases List.mem_append.mp h' with h' | h'
          · rcases hevT with rfl | ⟨s, _, rfl⟩
            · cases h'
            · rcases List.mem_cons.mp h' with h' | h'
              · cases h'
              · cases h'
          · have := runTasks_no_advance env til
              (env.get_tasks_by_professional item.from_initials) var0
              item.xflow_process_id
            rw [hrn] at this
            exact this h'

/-- Witness for C8: one task, processed successfully; the trace ends in the
write-back and the advance. -/
theorem claim_C8_witness :
    ∃ evs : List Ev,
      (processItem envHappy "d" none
          { from_initials := "AB", to_initials := none
            xflow_process_id := "P8" }).trace =
        evs ++ [Ev.updateProcess "P8" (blanketData "d"), Ev.advanceProcess "P8"]
      ∧ countP isAttempt evs =
          (envHappy.get_tasks_by_professional "AB").length
      ∧ Ev.advanceProcess "P8" ∉ evs :=
  claim_C8_writeback_then_advance_after_all_attempts envHappy "d" none
    { from_initials := "AB", to_initials := none, xflow_process_id := "P8" }
    (by decide)

/-- C9: a non-blank `to_initials` that resolves to no Employee raises a
`TypeError` on line 74, before the per-task loop: the item's entire observable
behavior is the task fetch and the failed lookup, the local `nexus_opgave` is
untouched, the instance is not advanced, and the item is marked failed. -/
theorem claim_C9_unresolvable_target_fails_before_loop (env : Env)
    (today : String) (var0 : Option (Option Assignment)) (item : WorkItem)
    (s : String) (h1 : item.to_initials = some s) (h2 : pyStrip s ≠ "")
    (h3 : env.hent_medarbejder_ved_initialer s = none) :
    processItem env today var0 item =
      { trace := [Ev.getTasks item.from_initials, Ev.lookupEmployee s]
        var := var0, exc := some Exc.typeError, status := ItemStatus.failed } := by
  have hchk : tilMedarbejderCheck item.to_initials = true := by
    rw [h1]
    simp [tilMedarbejderCheck]
    intro hcontra
    exact absurd hcontra h2
  have hrt : resolveTil env item.to_initials =
      ([Ev.lookupEmployee s], none, some Exc.typeError) := by
    unfold resolveTil
    rw [hchk, h1]
    simp [h3]
  exact processItem_resolve_fail hrt

/-- Witness for C9: `to_initials = "XY"`, unresolved in the directory. -/
theorem claim_C9_witness :
    pyStrip "XY" ≠ ""
    ∧ processItem envHappy "d" none
        { from_initials := "AB", to_initials := some "XY"
          xflow_process_id := "P9" } =
      { trace := [Ev.getTasks "AB", Ev.lookupEmployee "XY"]
        var := none, exc := some Exc.typeError, status := ItemStatus.failed } :=
  ⟨by decide,
    claim_C9_unresolvable_target_fails_before_loop envHappy "d" none
      { from_initials := "AB", to_initials := some "XY", xflow_process_id := "P9" }
      "XY" rfl (by decide) rfl⟩

/-- While every request's source employee resolves, the populate loop keeps
scanning: its trace is the prefix's trace followed by the remainder's. -/
lemma populateQueue_append_resolvable (dir : String → Option Employee) :
    ∀ (pre rest : List PRequest), (∀ q ∈ pre, dir q.fraInitialer ≠ none) →
      populateQueue dir (pre ++ rest) =
        populateQueue dir pre ++ populateQueue dir rest := by
  intro pre
  induction pre with
  | nil => intro rest _; rfl
  | cons q pre' ih =>
    intro rest h
    have hq : dir q.fraInitialer ≠ none := h q (List.mem_cons_self q pre')
    cases hm : dir q.fraInitialer with
    | none => exact absurd hm hq
    | some m =>
      have := ih rest fun x hx => h x (List.mem_cons_of_mem q hx)
      simp [populateQueue, hm, this]

/-- A run over resolvable requests only issues no rejection. -/
lemma populateQueue_resolvable_no_reject (dir : String → Option Employee) :
    ∀ (pre : List PRequest), (∀ q ∈ pre, dir q.fraInitialer ≠ none) →
      countP isRejectAny (populateQueue dir pre) = 0 := by
  intro pre
  induction pre with
  | nil => intro _; rfl
  | cons q pre' ih =>
    intro h
    have hq : dir q.fraInitialer ≠ none := h q (List.mem_cons_self q pre')
    cases hm : dir q.fraInitialer with
    | none => exact absurd hm hq
    | some m =>
      have := ih fun x hx => h x (List.mem_cons_of_mem q hx)
      simp only [populateQueue, hm] at *
      simp only [countP, List.filter_cons] at *
      simp [isRejectAny, this]

/-- Reaching a request whose source employee does not resolve rejects it and
stops the scan (`break`, line 53). -/
lemma populateQueue_unresolvable_head {dir : String → Option Employee}
    {p : PRequest} (post : List PRequest) (h : dir p.fraInitialer = none) :
    populateQueue dir (p :: post) =
      [Ev.lookupEmployee p.fraInitialer,
       Ev.rejectProcess p.publicId p.rejectActivityId afvisReason] := by
  simp [populateQueue, h]

/-- Every WorkItem the populate phase enqueues has a resolvable
`from_initials`. -/
lemma populateQueue_adds_resolvable (dir : String → Option Employee) :
    ∀ (reqs : List PRequest), ∀ e ∈ populateQueue dir reqs,
      ∀ it lbl, e = Ev.addItem it lbl → dir it.from_initials ≠ none := by
  intro reqs
  induction reqs with
  | nil => intro e he; cases he
  | cons q rest ih =>
    intro e he it lbl heq
    cases hm : dir q.fraInitialer with
    | none =>
      rw [populateQueue_unresolvable_head rest hm] at he
      rcases List.mem_cons.mp he with h' | h'
      · rw [h'] at heq; cases heq
      · rcases List.mem_cons.mp h' with h' | h'
        · rw [h'] at heq; cases heq
        · cases h'
    | some m =>
      rw [populateQueue] at he
      rw [hm] at he
      rcases List.mem_cons.mp he with h' | h'
      · rw [h'] at heq; cases heq
      · rcases List.mem_cons.mp h' with h' | h'
        · rw [h'] at heq
          cases heq
          intro hcontra
          rw [hcontra] at hm
          cases hm
        · exact ih e h' it lbl heq

/-- C7: once the first unresolvable source employee is reached and rejected,
the remaining search results of that run are not processed at all: the trace
is identical to the one where they are absent. -/
theorem claim_C7_scan_stops_after_first_unresolved
    (dir : String → Option Employee) (pre : List PRequest) (p : PRequest)
    (post : List PRequest)
    (hpre : ∀ q ∈ pre, dir q.fraInitialer ≠ none)
    (hp : dir p.fraInitialer = none) :
    populateQueue dir (pre ++ p :: post) = populateQueue dir (pre ++ [p]) := by
  rw [populateQueue_append_resolvable dir pre (p :: post) hpre,
      populateQueue_append_resolvable dir pre [p] hpre,
      populateQueue_unresolvable_head post hp,
      populateQueue_unresolvable_head [] hp]

/-- Directory used by the populate-phase witnesses: it resolves "AB" only. -/
def dirAB : String → Option Employee := fun s =>
  if s == "AB" then
    some { id := "1", fullName := "Anna B", primaryIdentifier := "ab1"
           active := true }
  else none

/-- Three concrete populate requests: resolvable, unresolvable, unresolvable. -/
def reqA : PRequest :=
  { publicId := "PA", fraInitialer := "AB", tilInitialer := "CD"
    rejectActivityId := "A0" }

def reqZ : PRequest :=
  { publicId := "PZ", fraInitialer := "ZZ", tilInitialer := "CD"
    rejectActivityId := "A1" }

def reqQ : PRequest :=
  { publicId := "PQ", fraInitialer := "QQ", tilInitialer := "CD"
    rejectActivityId := "A2" }

/-- Witness for C7. -/
theorem claim_C7_witness :
    (∀ q ∈ [reqA], dirAB q.fraInitialer ≠ none)
    ∧ dirAB reqZ.fraInitialer = none
    ∧ populateQueue dirAB ([reqA] ++ reqZ :: [reqQ]) =
        populateQueue dirAB ([reqA] ++ [reqZ]) :=
  ⟨by decide, by decide,
    claim_C7_scan_stops_after_first_unresolved dirAB [reqA] reqZ [reqQ]
      (by decide) (by decide)⟩

/-- C4 counterexample: with two requests whose source employees are both
unresolvable, the second one is never rejected (the scan stopped at the
first), so "exactly one rejection per unresolvable request" fails. -/
theorem claim_C4_counterexample :
    (fun _ : String => (none : Option Employee)) reqQ.fraInitialer = none
    ∧ reqQ ∈ [reqZ, reqQ]
    ∧ countP (isRejectOf reqQ.publicId)
        (populateQueue (fun _ => none) [reqZ, reqQ]) = 0 := by
  decide

/-- C4 as amended: the first unresolvable request reached gets exactly one
rejection (the scan's whole tail trace is that single lookup-and-reject, and
the resolvable prefix produced no rejection), and no WorkItem with an
unresolvable `from_initials` is ever enqueued. -/
theorem claim_C4_first_unresolved_rejected_once
    (dir : String → Option Employee) (pre : List PRequest) (p : PRequest)
    (post : List PRequest)
    (hpre : ∀ q ∈ pre, dir q.fraInitialer ≠ none)
    (hp : dir p.fraInitialer = none) :
    populateQueue dir (pre ++ p :: post) =
      populateQueue dir pre ++
        [Ev.lookupEmployee p.fraInitialer,
         Ev.rejectProcess p.publicId p.rejectActivityId afvisReason]
    ∧ countP isRejectAny (populateQueue dir pre) = 0
    ∧ ∀ it lbl, Ev.addItem it lbl ∈ populateQueue dir (pre ++ p :: post) →
        dir it.from_initials ≠ none := by
  refine ⟨?_, populateQueue_resolvable_no_reject dir pre hpre, ?_⟩
  · rw [populateQueue_append_resolvable dir pre (p :: post) hpre,
        populateQueue_unresolvable_head post hp]
  · intro it lbl hmem
    exact populateQueue_adds_resolvable dir (pre ++ p :: post) _ hmem it lbl rfl

/-- Witness for the amended C4. -/
theorem claim_C4_witness :
    (∀ q ∈ [reqA], dirAB q.fraInitialer ≠ none)
    ∧ dirAB reqZ.fraInitialer = none
    ∧ populateQueue dirAB ([reqA] ++ reqZ :: [reqQ]) =
        populateQueue dirAB [reqA] ++
          [Ev.lookupEmployee "ZZ", Ev.rejectProcess "PZ" "A1" afvisReason]
    ∧ countP isRejectAny (populateQueue dirAB [reqA]) = 0 :=
  ⟨by decide, by decide,
    (claim_C4_first_unresolved_rejected_once dirAB [reqA] reqZ [reqQ]
        (by decide) (by decide)).1,
    (claim_C4_first_unresolved_rejected_once dirAB [reqA] reqZ [reqQ]
        (by decide) (by decide)).2.1⟩

/-- C5: the rejection reason interpolates `medarbejder_fra` (the lookup
result, `None` in that branch) instead of the initials: for unresolvable
source initials "ZZ" the reason does not contain "ZZ" — it contains "None". -/
theorem claim_C5_reject_reason_lacks_initials :
    populateQueue (fun _ => none)
        [{ publicId := "P5", fraInitialer := "ZZ", tilInitialer := "YY"
           rejectActivityId := "A1" }] =
      [Ev.lookupEmployee "ZZ", Ev.rejectProcess "P5" "A1" afvisReason]
    ∧ strContains afvisReason "ZZ" = false
    ∧ strContains afvisReason "None" = true := by
  decide

/-- Environment for C1's failing input: two tasks for "AB"; the first task's
citizen lookup returns `None`. -/
def envC1 : Env :=
  { hent_medarbejder_ved_initialer := fun _ => none
    get_tasks_by_professional := fun _ =>
      [{ cpr := "0101", id := "T1" }, { cpr := "0202", id := "T2" }]
    hent_borger := fun c => if c == "0101" then none else some { cpr := c }
    hent_opgave_for_borger := fun _ _ =>
      some { title := some "Opgave", professionalAssignee := none }
    rediger_opgave_ok := fun _ => true }

/-- C1 failing input: in a fresh run, a missing citizen on the very first task
raises `UnboundLocalError` inside the `except` handler (line 110 reads the
never-assigned local `nexus_opgave`), so only one of the two tasks is
attempted and the WorkItem is marked failed — the claim requires two
attempts. -/
theorem claim_C1_missing_citizen_on_first_task_aborts :
    (envC1.get_tasks_by_professional "AB").length = 2
    ∧ countP isAttempt
        (runProcessPhase envC1 "d"
          [{ from_initials := "AB", to_initials := none
             xflow_process_id := "P1" }]).1 = 1
    ∧ Ev.hentBorger "0202" ∉
        (runProcessPhase envC1 "d"
          [{ from_initials := "AB", to_initials := none
             xflow_process_id := "P1" }]).1
    ∧ (runProcessPhase envC1 "d"
        [{ from_initials := "AB", to_initials := none
           xflow_process_id := "P1" }]).2 = [ItemStatus.failed] := by
  decide

/-- Environment for C6's failing input: one task for "AB" whose citizen
lookup returns `None`. -/
def envC6 : Env :=
  { hent_medarbejder_ved_initialer := fun _ => none
    get_tasks_by_professional := fun _ => [{ cpr := "0303", id := "T6" }]
    hent_borger := fun _ => none
    hent_opgave_for_borger := fun _ _ =>
      some { title := some "Opgave", professionalAssignee := none }
    rediger_opgave_ok := fun _ => true }

/-- Environment for C6's Scenario D: two tasks; citizen and assignment
resolve; every save raises `WorkItemError`. -/
def envC6D : Env :=
  { hent_medarbejder_ved_initialer := fun _ => none
    get_tasks_by_professional := fun _ =>
      [{ cpr := "0404", id := "T7" }, { cpr := "0505", id := "T8" }]
    hent_borger := fun c => some { cpr := c }
    hent_opgave_for_borger := fun _ _ =>
      some { title := some "Opgave", professionalAssignee := none }
    rediger_opgave_ok := fun _ => false }

/-- C6 evaluated on the code: a missing citizen on a fresh run's first task
yields zero report events and a failed (aborted) WorkItem, contradicting
"caught locally, one report event, never aborts"; whereas Scenario D (every
save raises) behaves as the claim says: N = 2 reports, zero tracks, instance
still advanced, item completed. -/
theorem claim_C6_missing_citizen_unreported_abort_but_scenario_D_holds :
    (countP isReport
        (runProcessPhase envC6 "d"
          [{ from_initials := "AB", to_initials := none
             xflow_process_id := "P6" }]).1 = 0
      ∧ (runProcessPhase envC6 "d"
          [{ from_initials := "AB", to_initials := none
             xflow_process_id := "P6" }]).2 = [ItemStatus.failed])
    ∧ (countP isReport
        (runProcessPhase envC6D "d"
          [{ from_initials := "AB", to_initials := none
             xflow_process_id := "P6D" }]).1 = 2
      ∧ countP isTrack
          (runProcessPhase envC6D "d"
            [{ from_initials := "AB", to_initials := none
               xflow_process_id := "P6D" }]).1 = 0
      ∧ Ev.advanceProcess "P6D" ∈
          (runProcessPhase envC6D "d"
            [{ from_initials := "AB", to_initials := none
               xflow_process_id := "P6D" }]).1
      ∧ (runProcessPhase envC6D "d"
          [{ from_initials := "AB", to_initials := none
             xflow_process_id := "P6D" }]).2 = [ItemStatus.completed]) := by
  decide

end Opgaveflytning
